import Mathlib

/-!
Shallow embedding of the wonderbox IoC container (src/src/lib.rs) and of the
earlier container iteration (src/src/main.rs), together with proofs of the
specified properties of registration, resolution, merging and diagnostics.

Modelling choices, each tied to the source:
* `Ty` models the space of Rust type identities produced by `type_name`.
  The constructor `Ty.producer t` is the identity of `Box<dyn Fn() -> T>`,
  the deferred-producer type that `Container::register` additionally
  registers for every `T`; it is structurally distinct from every base type
  and injective, mirroring the uniqueness of nominal type names.
* The two `HashMap`s of `Container` are modelled as association lists whose
  insert operation replaces any previous binding of the key (last write
  wins), exactly the observable semantics of `HashMap::insert`.
* A user-supplied factory closure `impl Fn(&Container) -> T` is modelled by
  a small code type `FExpr`; `evalFactory` runs such a code against a
  container.  A factory may call `try_resolve` on the container it is
  handed, so evaluation is fuelled: the source performs no cycle detection
  and recursive resolution simply consumes call stack, which the fuel
  models (`fuel` exhaustion plays the role of stack exhaustion).
* `try_resolve` returns `Except String (Option Val)`: `.ok none` is the
  `None` of the source, `.ok (some v)` is `Some(value)`, and `.error`
  models the two process-aborting paths (the internal downcast failure in
  `try_resolve` and the diagnostic of `resolve`), carrying the
  message built exactly as the source formats it.
-/

/-- Rust type identities (the key space of `type_name::<T>()`).
`producer t` is the identity of `Box<dyn Fn() -> T>`. -/
inductive Ty where
  | base (n : Nat)
  | producer (t : Ty)
deriving DecidableEq

/-- The full nominal name of a type identity, as `type_name` renders it. -/
def typeName : Ty → String
  | Ty.base n => "crate::Type" ++ toString n
  | Ty.producer t => "std::boxed::Box<dyn std::ops::Fn() -> " ++ typeName t ++ ">"

/-- Code of a user-supplied factory closure `impl Fn(&Container) -> T`.
`const n` ignores its container argument and returns a plain value;
`resolveWrap tag dep` calls `container.try_resolve::<dep>()` on the
container it receives and wraps the resulting `Option` in its result,
modelling a factory that resolves one of its own dependencies at
invocation time. -/
inductive FExpr where
  | const (n : Nat)
  | resolveWrap (tag : Nat) (dep : Ty)
deriving DecidableEq

/-- A type-erased stored factory: either the re-boxed user factory that
`register` files in `registered_types`, or the synthesized
partially-applied factory filed in `registered_type_factories`. -/
inductive Factory where
  | user (u : FExpr)
  | deferred (u : FExpr)
deriving DecidableEq

/-- One stored `Arc<dyn Any + Send + Sync>`: the dynamic type recorded by
the `Any` box (what `downcast_ref` checks against) plus the factory. -/
structure Entry where
  dyn : Ty
  fac : Factory
deriving DecidableEq

/-- The IoC container of src/src/lib.rs: two maps from type identity to a
type-erased factory. -/
structure Container where
  registered_types : List (Ty × Entry)
  registered_type_factories : List (Ty × Entry)
deriving DecidableEq

/-- Remove every binding of key `k` (helper for map-semantics insert). -/
def eraseKey {β : Type} (k : Ty) : List (Ty × β) → List (Ty × β)
  | [] => []
  | p :: l => if p.1 = k then eraseKey k l else p :: eraseKey k l

/-- `HashMap::insert`: bind `k` to `v`, replacing any previous binding. -/
def insertA {β : Type} (k : Ty) (v : β) (l : List (Ty × β)) : List (Ty × β) :=
  (k, v) :: eraseKey k l

/-- `HashMap::get`. -/
def lookupA {β : Type} (k : Ty) : List (Ty × β) → Option β
  | [] => none
  | p :: l => if p.1 = k then some p.2 else lookupA k l

/-- `Container::new` (via `Default::default`): both maps empty. -/
def Container.new : Container := ⟨[], []⟩

/-- `Container::register::<T>`: file the (re-boxed) user factory under
`T`'s identity in `registered_types`, and file the synthesized
partially-applied factory under the identity of `Box<dyn Fn() -> T>` in
`registered_type_factories`. -/
def Container.register (c : Container) (t : Ty) (u : FExpr) : Container :=
  ⟨insertA t ⟨t, Factory.user u⟩ c.registered_types,
   insertA (Ty.producer t) ⟨Ty.producer t, Factory.deferred u⟩
     c.registered_type_factories⟩

/-- `Container::register_autoresolvable`: wraps the registration function
into an ordinary factory closure and delegates to `register` (the wrapped
closure is itself just a user factory code). -/
def Container.register_autoresolvable (c : Container) (t : Ty) (u : FExpr) :
    Container :=
  c.register t u

/-- `Container::extend`: `self.registered_types.extend(container.registered_types.into_iter())`.
Only the direct-registration map of the argument is inserted;
`registered_type_factories` is left untouched by the source. -/
def Container.extend (c other : Container) : Container :=
  ⟨other.registered_types.foldl (fun acc p => insertA p.1 p.2 acc)
     c.registered_types,
   c.registered_type_factories⟩

/-- The lookup performed by `try_resolve`:
`self.registered_types.get(key).or_else(|| self.registered_type_factories.get(key))`. -/
def Container.lookupEntry (c : Container) (t : Ty) : Option Entry :=
  match lookupA t c.registered_types with
  | some e => some e
  | none => lookupA t c.registered_type_factories

/-- `Container::registered_type_names`: the names of the keys of
`registered_types`. -/
def Container.registered_type_names (c : Container) : List String :=
  c.registered_types.map (fun p => typeName p.1)

/-- `Container::pretty_print_registered_types`: sort the registered names,
render each as a bullet line and concatenate. -/
def Container.pretty_print_registered_types (c : Container) : String :=
  (((List.insertionSort (fun a b : String => a ≤ b)
      c.registered_type_names).map
        (fun n => "- " ++ n ++ "\n")).foldl (fun acc s => acc ++ s) "")

/-- The fixed note appended to the non-empty diagnostic (source line 337). -/
def producerNote : String :=
  "In addition, the following factories were generated for each type `T`.\n- std::boxed::Box<dyn Fn() -> T>"

/-- `Container::resolution_failure_help`. -/
def Container.resolution_failure_help (c : Container) : String :=
  if c.registered_types.isEmpty then "No registered types were found."
  else
    "The following registered types were found.\n" ++
      c.pretty_print_registered_types ++ producerNote

/-- The message of the defensive fatal path taken when the stored `Any` box
does not downcast to the requested factory type (contractions of the
source text spelled out). -/
def internalErrorMessage (t : Ty) (c : Container) : String :=
  "Internal error: Could not downcast internally stored registered type to resolved type `" ++
    typeName t ++ "`. You have encountered a Wonderbox bug. Additional info: " ++
    c.resolution_failure_help

/-- The message of the fatal path of `resolve` on a miss. -/
def resolveFailureMessage (t : Ty) (c : Container) : String :=
  "Wonderbox failed to resolve the type `" ++ typeName t ++
    "`.\nHelp: " ++ c.resolution_failure_help

/-- Message standing for call-stack exhaustion of unbounded recursive
resolution (the source performs no cycle detection). -/
def stackOverflowMessage : String :=
  "stack overflow: recursive resolution exhausted the call stack"

/-- A value produced by resolution: a plain value, a value wrapping the
outcome of a dependency resolution, or the zero-argument closure returned
by the synthesized deferred factory, which captures the user factory and a
clone (snapshot) of the container taken when the producer was resolved. -/
inductive Val where
  | base (n : Nat)
  | wrap (tag : Nat) (o : Option Val)
  | closure (u : FExpr) (snapshot : Container)

/-- `Container::try_resolve::<T>`: look the key up in `registered_types`,
falling back to `registered_type_factories`; on a miss return `None`
(`.ok none`); otherwise downcast (check the recorded dynamic type against
the requested identity, fatally failing on mismatch) and invoke the stored
factory with the current container.  The body of a `user` factory is
evaluated in-line (it is an arbitrary closure, here an `FExpr` code); a
`deferred` factory clones the container and returns the zero-argument
closure over the user factory and the clone, exactly as the synthesized
factory of `register` does. -/
def Container.try_resolve (fuel : Nat) (c : Container) (t : Ty) :
    Except String (Option Val) :=
  match c.lookupEntry t with
  | none => Except.ok none
  | some e =>
    if e.dyn = t then
      match e.fac with
      | Factory.user (FExpr.const n) => Except.ok (some (Val.base n))
      | Factory.user (FExpr.resolveWrap tag dep) =>
        match fuel with
        | 0 => Except.error stackOverflowMessage
        | fuel' + 1 =>
          ((Container.try_resolve fuel' c dep).map (Val.wrap tag)).map some
      | Factory.deferred u => Except.ok (some (Val.closure u c))
    else Except.error (internalErrorMessage t c)

/-- Evaluation of a user factory code against a container: what the stored
closure `move |container| implementation_factory(container)` computes. -/
def evalFactory (fuel : Nat) (u : FExpr) (c : Container) : Except String Val :=
  match u with
  | FExpr.const n => Except.ok (Val.base n)
  | FExpr.resolveWrap tag dep =>
    match fuel with
    | 0 => Except.error stackOverflowMessage
    | fuel' + 1 => (Container.try_resolve fuel' c dep).map (Val.wrap tag)

/-- `Container::resolve::<T>`: `try_resolve` with the miss turned into the
fatal diagnostic path. -/
def Container.resolve (fuel : Nat) (c : Container) (t : Ty) :
    Except String Val :=
  match c.try_resolve fuel t with
  | Except.ok (some v) => Except.ok v
  | Except.ok none => Except.error (resolveFailureMessage t c)
  | Except.error e => Except.error e

/-- Invoking a resolved `Box<dyn Fn() -> T>` value: the closure runs the
captured user factory against the captured container snapshot; no live
container is needed. -/
def invokeProducer (fuel : Nat) : Val → Except String Val
  | Val.closure u snapshot => evalFactory fuel u snapshot
  | _ => Except.error "value is not an invokable producer"

/-- The factory invocations `try_resolve` performs directly, each with the
container reference passed to it: one on a hit (the source calls
`implementation_factory(self)` exactly once), none on a miss or on the
defensive downcast failure. -/
def Container.try_resolve_invocations (c : Container) (t : Ty) :
    List (Factory × Container) :=
  match c.lookupEntry t with
  | none => []
  | some e => if e.dyn = t then [(e.fac, c)] else []

/-- One public-API mutation applied to a container: a `register` call (a
`register_autoresolvable` call is a `register` call with a wrapped
factory) or an `extend` call absorbing another container. -/
inductive TraceOp where
  | reg (t : Ty) (u : FExpr)
  | ext (other : Container)

/-- Apply one mutation. -/
def applyOp (c : Container) : TraceOp → Container
  | TraceOp.reg t u => c.register t u
  | TraceOp.ext other => c.extend other

/-- Apply a whole history of mutations in order. -/
def applyOps (c : Container) (ops : List TraceOp) : Container :=
  ops.foldl applyOp c

/-- Containers reachable through the public API: `new`, `register`,
`register_autoresolvable`, `extend` (the resolution methods take `&self`
and mutate nothing). -/
inductive Reachable : Container → Prop where
  | new : Reachable Container.new
  | register (t : Ty) (u : FExpr) {c : Container} :
      Reachable c → Reachable (c.register t u)
  | register_auto (t : Ty) (u : FExpr) {c : Container} :
      Reachable c → Reachable (c.register_autoresolvable t u)
  | extend {c other : Container} :
      Reachable c → Reachable other → Reachable (c.extend other)

/-! The container of src/src/main.rs: a single map from `TypeId` to a
type-erased `Implementation`, with a clone-based resolution path. -/

/-- `Implementation` of src/src/main.rs: a stored concrete value
(`Concrete(Box<dyn Any>)`, filed by `register`) or a stored factory
closure (`Factory(Box<dyn Any>)`, filed by `register_factory`); each
records the dynamic type of its `Any` box. -/
inductive Implementation (α : Type) where
  | concrete (dyn : Ty) (v : α)
  | factory (dyn : Ty) (u : FExpr)

/-- The `Container` of src/src/main.rs. -/
structure MainContainer (α : Type) where
  registered_types : List (Ty × Implementation α)

/-- Rust `Clone::clone` on a stored value, in the value model: it yields a
fresh value equal to the original (the model has value semantics, so the
freshness of the copy is intrinsic). -/
def cloneValue {α : Type} (v : α) : α := v

/-- `Container::register` of src/src/main.rs: store the value itself,
type-erased, under its type identity (the by-clone registration of the
spec). -/
def MainContainer.register {α : Type} (c : MainContainer α) (t : Ty) (v : α) :
    MainContainer α :=
  ⟨insertA t (Implementation.concrete t v) c.registered_types⟩

/-- `<Container as Resolvable<T>>::resolve` of src/src/main.rs for
`T: 'static + Clone`: look the identity up; a `Concrete` entry is
downcast and cloned, a `Factory` entry is downcast and invoked with the
container (`fsem` abstracts the stored closure's behaviour); a downcast
failure is the fatal `expect` path. -/
def MainContainer.resolve {α : Type} (fsem : FExpr → MainContainer α → α)
    (c : MainContainer α) (t : Ty) : Except String (Option α) :=
  match lookupA t c.registered_types with
  | none => Except.ok none
  | some (Implementation.concrete d v) =>
    if d = t then Except.ok (some (cloneValue v))
    else Except.error "Internal error: Could not downcast stored type to resolved type"
  | some (Implementation.factory d u) =>
    if d = t then Except.ok (some (fsem u c))
    else Except.error "Internal error: Could not downcast stored type to resolved type"

/-! Observational equivalence of containers, used to state that
registration order does not affect resolution behaviour.  Two containers
are lookup-equivalent when every key resolves to the same stored entry in
both and their direct-registration key lists are permutations (so the
diagnostic texts, which sort the names, also agree).  Values are compared
up to the container snapshots captured inside producer closures, which
are themselves compared by lookup-equivalence. -/

/-- Lookup-equivalence of containers. -/
def LookupEquiv (c₁ c₂ : Container) : Prop :=
  (∀ t, lookupA t c₁.registered_types = lookupA t c₂.registered_types) ∧
  (∀ t, lookupA t c₁.registered_type_factories =
      lookupA t c₂.registered_type_factories) ∧
  (c₁.registered_types.map Prod.fst).Perm (c₂.registered_types.map Prod.fst)

/-- Equality of resolved values up to lookup-equivalence of the container
snapshots captured inside producer closures. -/
inductive ValEquiv : Val → Val → Prop where
  | base (n : Nat) : ValEquiv (Val.base n) (Val.base n)
  | wrapNone (tag : Nat) : ValEquiv (Val.wrap tag none) (Val.wrap tag none)
  | wrapSome (tag : Nat) {a b : Val} :
      ValEquiv a b → ValEquiv (Val.wrap tag (some a)) (Val.wrap tag (some b))
  | closure (u : FExpr) {s₁ s₂ : Container} :
      LookupEquiv s₁ s₂ → ValEquiv (Val.closure u s₁) (Val.closure u s₂)

/-- Equality of `try_resolve` outcomes up to `ValEquiv`. -/
inductive ResEquiv :
    Except String (Option Val) → Except String (Option Val) → Prop where
  | err (s : String) : ResEquiv (Except.error s) (Except.error s)
  | miss : ResEquiv (Except.ok none) (Except.ok none)
  | hit {a b : Val} :
      ValEquiv a b → ResEquiv (Except.ok (some a)) (Except.ok (some b))

/-- Equality of factory-evaluation outcomes up to `ValEquiv`. -/
inductive EvalEquiv : Except String Val → Except String Val → Prop where
  | err (s : String) : EvalEquiv (Except.error s) (Except.error s)
  | ok {a b : Val} : ValEquiv a b → EvalEquiv (Except.ok a) (Except.ok b)

/-- Shape invariant of `registered_type_factories`: only `register` writes
to it, always filing, under the producer identity of the registered type,
an entry whose recorded dynamic type is that same key and whose factory
is the synthesized deferred one. -/
def FacsOk (c : Container) : Prop :=
  ∀ p ∈ c.registered_type_factories,
    p.2.dyn = p.1 ∧ ∃ u', p.2.fac = Factory.deferred u'

/-! ### Association-list lemmas (the observable `HashMap` semantics) -/

theorem lookupA_eraseKey_self {β : Type} (k : Ty) (l : List (Ty × β)) :
    lookupA k (eraseKey k l) = none := by
  induction l with
  | nil => rfl
  | cons p l ih =>
    by_cases h : p.1 = k
    · simpa [eraseKey, h]
    · simp [eraseKey, h, lookupA, ih]

theorem lookupA_eraseKey_ne {β : Type} {k k' : Ty} (l : List (Ty × β))
    (h : k ≠ k') : lookupA k (eraseKey k' l) = lookupA k l := by
  induction l with
  | nil => rfl
  | cons p l ih =>
    by_cases hp : p.1 = k'
    · simp [eraseKey, hp, lookupA, ih, Ne.symm h]
    · simp only [eraseKey, hp, if_false, lookupA]
      by_cases hk : p.1 = k
      · simp [hk]
      · simp [hk, ih]

theorem lookupA_insertA {β : Type} (k k' : Ty) (v : β) (l : List (Ty × β)) :
    lookupA k (insertA k' v l) =
      if k' = k then some v else lookupA k l := by
  by_cases h : k' = k
  · simp [insertA, lookupA, h]
  · have hne : k ≠ k' := fun hk => h hk.symm
    simp [insertA, lookupA, h, lookupA_eraseKey_ne l hne]

theorem eraseKey_eraseKey_self {β : Type} (k : Ty) (l : List (Ty × β)) :
    eraseKey k (eraseKey k l) = eraseKey k l := by
  induction l with
  | nil => rfl
  | cons p l ih =>
    by_cases h : p.1 = k
    · simp [eraseKey, h, ih]
    · simp [eraseKey, h, ih]

theorem eraseKey_comm {β : Type} (k k' : Ty) (l : List (Ty × β)) :
    eraseKey k (eraseKey k' l) = eraseKey k' (eraseKey k l) := by
  induction l with
  | nil => rfl
  | cons p l ih =>
    by_cases h : p.1 = k'
    · by_cases h' : p.1 = k
      · have hkk : k = k' := h'.symm.trans h
        subst hkk; rfl
      · have hkk : k' ≠ k := fun e => h' (h.trans e)
        simp [eraseKey, h, h', ih, hkk]
    · by_cases h' : p.1 = k
      · have hkk : k ≠ k' := fun e => h (h'.trans e)
        simp [eraseKey, h, h', ih, hkk]
      · simp [eraseKey, h, h', ih]

theorem insertA_insertA_self {β : Type} (k : Ty) (v₁ v₂ : β)
    (l : List (Ty × β)) :
    insertA k v₂ (insertA k v₁ l) = insertA k v₂ l := by
  simp [insertA, eraseKey, eraseKey_eraseKey_self]

theorem lookupA_mem {β : Type} {k : Ty} {v : β} :
    ∀ {l : List (Ty × β)}, lookupA k l = some v → (k, v) ∈ l := by
  intro l
  induction l with
  | nil => intro h; cases h
  | cons p l ih =>
    intro h
    by_cases hp : p.1 = k
    · simp only [lookupA, hp, if_true, Option.some.injEq] at h
      subst hp; subst h
      exact List.mem_cons_self _ _
    · simp only [lookupA, hp, if_false] at h
      exact List.mem_cons_of_mem _ (ih h)

theorem producer_ne (t : Ty) : Ty.producer t ≠ t := by
  induction t with
  | base n => exact fun h => Ty.noConfusion h
  | producer s ih => exact fun h => ih (by injection h)

/-! ### Dispatch lemmas for `try_resolve` -/

/-- On a hit of a (well-filed) user factory, `try_resolve` invokes exactly
that factory with the current container and wraps its outcome in `some`. -/
theorem try_resolve_user_eq (fuel : Nat) (c : Container) (t : Ty) (u : FExpr)
    (h : c.lookupEntry t = some ⟨t, Factory.user u⟩) :
    c.try_resolve fuel t = (evalFactory fuel u c).map some := by
  cases u with
  | const n =>
    rw [Container.try_resolve.eq_def]
    simp [h, evalFactory, Except.map]
  | resolveWrap tag dep =>
    cases fuel with
    | zero =>
      rw [Container.try_resolve.eq_def]
      simp [h, evalFactory, Except.map]
    | succ f =>
      rw [Container.try_resolve.eq_def]
      simp [h, evalFactory]

/-- On a hit of a (well-filed) deferred factory, `try_resolve` returns the
producer closure over the current container. -/
theorem try_resolve_deferred_eq (fuel : Nat) (c : Container) (t : Ty)
    (u : FExpr) (h : c.lookupEntry t = some ⟨t, Factory.deferred u⟩) :
    c.try_resolve fuel t = Except.ok (some (Val.closure u c)) := by
  rw [Container.try_resolve.eq_def]
  simp [h]

/-- On a miss, `try_resolve` returns `None`. -/
theorem try_resolve_miss (fuel : Nat) (c : Container) (t : Ty)
    (h : c.lookupEntry t = none) :
    c.try_resolve fuel t = Except.ok none := by
  rw [Container.try_resolve.eq_def]
  simp [h]

theorem map_some_ne_ok_none (x : Except String Val) :
    x.map some ≠ Except.ok none := by
  cases x <;> simp [Except.map]

/-! ### Claim theorems -/

/-- C1: for every type identity `t` for which the container holds no
registration (neither a direct entry nor an auto-installed producer
entry), `try_resolve` returns `None`, and `resolve` takes the fatal path
with a diagnostic message that contains `t`'s full nominal type name. -/
theorem c1_unregistered_type_fails (fuel : Nat) (c : Container) (t : Ty)
    (h : c.lookupEntry t = none) :
    c.try_resolve fuel t = Except.ok none ∧
    c.resolve fuel t = Except.error (resolveFailureMessage t c) ∧
    ∃ pre post, c.resolve fuel t = Except.error (pre ++ typeName t ++ post) := by
  have h1 := try_resolve_miss fuel c t h
  refine ⟨h1, ?_, ?_⟩
  · simp [Container.resolve, h1]
  · refine ⟨"Wonderbox failed to resolve the type `",
      "`.\nHelp: " ++ c.resolution_failure_help, ?_⟩
    simp [Container.resolve, h1, resolveFailureMessage, String.append_assoc]

/-- Witness for C1 at the empty container and the type `Ty.base 0`. -/
theorem c1_unregistered_type_fails_witness :
    Container.new.lookupEntry (Ty.base 0) = none ∧
    (Container.new.try_resolve 1 (Ty.base 0) = Except.ok none ∧
     Container.new.resolve 1 (Ty.base 0) =
       Except.error (resolveFailureMessage (Ty.base 0) Container.new) ∧
     ∃ pre post, Container.new.resolve 1 (Ty.base 0) =
       Except.error (pre ++ typeName (Ty.base 0) ++ post)) :=
  ⟨rfl, c1_unregistered_type_fails 1 Container.new (Ty.base 0) rfl⟩

/-- C4: registering a second factory for the same type identity replaces
the first one entirely: the resulting container is equal to the one in
which only the second registration happened, so every subsequent
resolution of `t` (direct or through the deferred producer) behaves as
the second factory and never as the first. -/
theorem c4_last_write_wins (c : Container) (t : Ty) (u₁ u₂ : FExpr) :
    (c.register t u₁).register t u₂ = c.register t u₂ ∧
    (∀ fuel, ((c.register t u₁).register t u₂).try_resolve fuel t =
        (c.register t u₂).try_resolve fuel t) ∧
    (∀ fuel,
      ((c.register t u₁).register t u₂).try_resolve fuel (Ty.producer t) =
        (c.register t u₂).try_resolve fuel (Ty.producer t)) := by
  have he : (c.register t u₁).register t u₂ = c.register t u₂ := by
    simp [Container.register, insertA_insertA_self]
  exact ⟨he, fun fuel => by rw [he], fun fuel => by rw [he]⟩

/-- C6: for a factory `u` filed for type `t`, one `try_resolve` call
invokes exactly that factory, exactly once, passing the current container,
and returns `Some` of its result. -/
theorem c6_factory_invoked_once (fuel : Nat) (c : Container) (t : Ty)
    (u : FExpr) (h : c.lookupEntry t = some ⟨t, Factory.user u⟩) :
    c.try_resolve fuel t = (evalFactory fuel u c).map some ∧
    c.try_resolve_invocations t = [(Factory.user u, c)] := by
  refine ⟨try_resolve_user_eq fuel c t u h, ?_⟩
  simp [Container.try_resolve_invocations, h]

/-- Witness for C6 at a container holding one constant factory. -/
theorem c6_factory_invoked_once_witness :
    (Container.new.register (Ty.base 0) (FExpr.const 7)).lookupEntry
      (Ty.base 0) = some ⟨Ty.base 0, Factory.user (FExpr.const 7)⟩ ∧
    ((Container.new.register (Ty.base 0) (FExpr.const 7)).try_resolve 1
        (Ty.base 0) =
      (evalFactory 1 (FExpr.const 7)
        (Container.new.register (Ty.base 0) (FExpr.const 7))).map some ∧
     (Container.new.register (Ty.base 0) (FExpr.const 7)).try_resolve_invocations
        (Ty.base 0) =
      [(Factory.user (FExpr.const 7),
        Container.new.register (Ty.base 0) (FExpr.const 7))]) :=
  ⟨rfl, c6_factory_invoked_once 1 _ _ _ rfl⟩

/-- C7: after registering factory `u` for `t`, resolving the producer type
`Box<dyn Fn() -> t>` yields the zero-argument closure capturing `u` and a
clone of the container as it is at resolution time; invoking that closure
(any number of times, with no live container in scope) runs `u` against
the captured snapshot, reproducing the factory's result semantics. -/
theorem c7_producer_closure (fuel : Nat) (c : Container) (t : Ty) (u : FExpr)
    (h : lookupA (Ty.producer t) c.registered_types = none) :
    (c.register t u).try_resolve fuel (Ty.producer t) =
      Except.ok (some (Val.closure u (c.register t u))) ∧
    ∀ fuel', invokeProducer fuel' (Val.closure u (c.register t u)) =
      evalFactory fuel' u (c.register t u) := by
  have hl : (c.register t u).lookupEntry (Ty.producer t) =
      some ⟨Ty.producer t, Factory.deferred u⟩ := by
    unfold Container.lookupEntry
    have h1 : lookupA (Ty.producer t) (c.register t u).registered_types =
        none := by
      simp [Container.register, lookupA_insertA, Ne.symm (producer_ne t), h]
    rw [h1]
    simp [Container.register, lookupA_insertA]
  exact ⟨try_resolve_deferred_eq fuel _ _ u hl, fun _ => rfl⟩

/-- Witness for C7: one registration over the empty container. -/
theorem c7_producer_closure_witness :
    lookupA (Ty.producer (Ty.base 0)) Container.new.registered_types = none ∧
    ((Container.new.register (Ty.base 0) (FExpr.const 7)).try_resolve 1
        (Ty.producer (Ty.base 0)) =
      Except.ok (some (Val.closure (FExpr.const 7)
        (Container.new.register (Ty.base 0) (FExpr.const 7)))) ∧
     ∀ fuel', invokeProducer fuel'
        (Val.closure (FExpr.const 7)
          (Container.new.register (Ty.base 0) (FExpr.const 7))) =
      evalFactory fuel' (FExpr.const 7)
        (Container.new.register (Ty.base 0) (FExpr.const 7))) :=
  ⟨rfl, c7_producer_closure 1 Container.new (Ty.base 0) (FExpr.const 7) rfl⟩

/-- C9 (container of src/src/main.rs): after registering a cloneable value
`v` by clone under `t`, resolving `t` returns `Some` of a clone of `v`,
the clone is equal to `v`, and the stored original is untouched by
resolution (the container still files exactly `v` under `t`; resolution
takes the container immutably, and each call applies `Clone` to the
stored original afresh, so the returned values are independent copies). -/
theorem c9_register_by_clone {α : Type} (fsem : FExpr → MainContainer α → α)
    (c : MainContainer α) (t : Ty) (v : α) :
    (c.register t v).resolve fsem t = Except.ok (some (cloneValue v)) ∧
    cloneValue v = v ∧
    lookupA t (c.register t v).registered_types =
      some (Implementation.concrete t v) := by
  have hl : lookupA t (c.register t v).registered_types =
      some (Implementation.concrete t v) := by
    simp [MainContainer.register, lookupA_insertA]
  refine ⟨?_, rfl, hl⟩
  simp [MainContainer.resolve, hl]

theorem foldl_insertA_eq_nil {β : Type} (l : List (Ty × β))
    (acc : List (Ty × β))
    (h : l.foldl (fun a p => insertA p.1 p.2 a) acc = []) :
    acc = [] ∧ l = [] := by
  induction l generalizing acc with
  | nil => exact ⟨h, rfl⟩
  | cons p l ih =>
    simp only [List.foldl_cons] at h
    have h2 := (ih _ h).1
    simp [insertA] at h2

/-- C5: the fatal-miss diagnostic names the requested type; when the
direct-registration map is non-empty the help text enumerates every
registered type name, sorted, followed by the note about the
automatically generated producer factories; when it is empty the help
text states plainly that no types are registered. -/
theorem c5_diagnostic_payload (fuel : Nat) (c : Container) (t : Ty) :
    (c.registered_types.isEmpty = true →
      c.resolution_failure_help = "No registered types were found.") ∧
    (c.registered_types.isEmpty = false →
      ∃ l, l.Perm c.registered_type_names ∧
        List.Sorted (fun a b : String => a ≤ b) l ∧
        c.resolution_failure_help =
          "The following registered types were found.\n" ++
            (l.map (fun n => "- " ++ n ++ "\n")).foldl
              (fun acc s => acc ++ s) "" ++ producerNote) ∧
    (c.lookupEntry t = none →
      c.resolve fuel t =
        Except.error ("Wonderbox failed to resolve the type `" ++ typeName t
          ++ "`.\nHelp: " ++ c.resolution_failure_help)) := by
  refine ⟨?_, ?_, ?_⟩
  · intro h
    simp [Container.resolution_failure_help, h]
  · intro h
    refine ⟨List.insertionSort (fun a b : String => a ≤ b)
        c.registered_type_names,
      List.perm_insertionSort _ _, List.sorted_insertionSort _ _, ?_⟩
    simp [Container.resolution_failure_help, h,
      Container.pretty_print_registered_types]
  · intro h
    have h1 := try_resolve_miss fuel c t h
    simp [Container.resolve, h1, resolveFailureMessage]

/-- Witness for C5: the empty branch at `Container.new`, the enumerating
branch at a one-registration container, the naming of the requested type
at `Container.new`. -/
theorem c5_diagnostic_payload_witness :
    Container.new.resolution_failure_help =
      "No registered types were found." ∧
    (∃ l, l.Perm (Container.new.register (Ty.base 0)
        (FExpr.const 7)).registered_type_names ∧
      List.Sorted (fun a b : String => a ≤ b) l ∧
      (Container.new.register (Ty.base 0)
          (FExpr.const 7)).resolution_failure_help =
        "The following registered types were found.\n" ++
          (l.map (fun n => "- " ++ n ++ "\n")).foldl
            (fun acc s => acc ++ s) "" ++ producerNote) ∧
    Container.new.resolve 1 (Ty.base 1) =
      Except.error ("Wonderbox failed to resolve the type `" ++
        typeName (Ty.base 1) ++ "`.\nHelp: " ++
        Container.new.resolution_failure_help) :=
  ⟨(c5_diagnostic_payload 1 Container.new (Ty.base 1)).1 rfl,
   (c5_diagnostic_payload 1
      (Container.new.register (Ty.base 0) (FExpr.const 7)) (Ty.base 1)).2.1
     rfl,
   (c5_diagnostic_payload 1 Container.new (Ty.base 1)).2.2 rfl⟩

/-- C10: for every container reachable through the public API, the
auto-generated producer-factory map is empty whenever the direct
registration map is empty; and the "No registered types were found."
help text is produced only when the direct registration map is empty. -/
theorem c10_factories_empty_invariant (c : Container) (h : Reachable c) :
    (c.registered_types = [] → c.registered_type_factories = []) ∧
    (c.resolution_failure_help = "No registered types were found." →
      c.registered_types = []) := by
  constructor
  · induction h with
    | new => intro _; rfl
    | register t u _ ih =>
      intro he
      exact absurd he (by simp [Container.register, insertA])
    | register_auto t u _ ih =>
      intro he
      exact absurd he
        (by simp [Container.register_autoresolvable, Container.register,
              insertA])
    | extend hc ho ihc iho =>
      intro he
      obtain ⟨hacc, -⟩ := foldl_insertA_eq_nil _ _ he
      simpa [Container.extend] using ihc hacc
  · intro hmsg
    by_contra hne
    have hie : c.registered_types.isEmpty = false := by
      cases hcc : c.registered_types with
      | nil => exact absurd hcc hne
      | cons p l => rfl
    have hh : c.resolution_failure_help =
        "The following registered types were found.\n" ++
          c.pretty_print_registered_types ++ producerNote := by
      simp [Container.resolution_failure_help, hie]
    rw [hh] at hmsg
    have hlen := congrArg String.length hmsg
    have l1 : ("The following registered types were found.\n" : String).length
        = 43 := rfl
    have l2 : ("No registered types were found." : String).length = 31 := rfl
    rw [String.length_append, String.length_append, l1, l2] at hlen
    omega

/-- Witness for C10 at the empty container. -/
theorem c10_factories_empty_invariant_witness :
    Container.new.registered_type_factories = [] ∧
    Container.new.registered_types = [] :=
  ⟨(c10_factories_empty_invariant Container.new Reachable.new).1 rfl,
   (c10_factories_empty_invariant Container.new Reachable.new).2 rfl⟩

/-! ### Lemmas about `extend` and registration histories -/

theorem mem_of_mem_eraseKey {β : Type} {p : Ty × β} {k : Ty} :
    ∀ {l : List (Ty × β)}, p ∈ eraseKey k l → p ∈ l := by
  intro l
  induction l with
  | nil => intro h; cases h
  | cons q l ih =>
    intro h
    by_cases hq : q.1 = k
    · simp only [eraseKey, hq, if_true] at h
      exact List.mem_cons_of_mem _ (ih h)
    · simp only [eraseKey, hq, if_false, List.mem_cons] at h
      rcases h with h | h
      · exact h ▸ List.mem_cons_self _ _
      · exact List.mem_cons_of_mem _ (ih h)

theorem lookupA_eq_none_of_not_mem_keys {β : Type} {k : Ty}
    {l : List (Ty × β)} (h : k ∉ l.map Prod.fst) : lookupA k l = none := by
  induction l with
  | nil => rfl
  | cons p l ih =>
    simp only [List.map_cons, List.mem_cons] at h
    push_neg at h
    have hp : p.1 ≠ k := fun e => h.1 e.symm
    simp [lookupA, hp, ih h.2]

theorem lookupA_foldl_insertA {β : Type} (k : Ty) (l : List (Ty × β))
    (hnd : (l.map Prod.fst).Nodup) :
    ∀ acc, lookupA k (l.foldl (fun a p => insertA p.1 p.2 a) acc) =
      match lookupA k l with
      | some v => some v
      | none => lookupA k acc := by
  induction l with
  | nil => intro acc; rfl
  | cons p l ih =>
    intro acc
    simp only [List.map_cons, List.nodup_cons] at hnd
    simp only [List.foldl_cons]
    rw [ih hnd.2 (insertA p.1 p.2 acc)]
    by_cases hk : p.1 = k
    · subst hk
      have hnone : lookupA p.1 l = none :=
        lookupA_eq_none_of_not_mem_keys hnd.1
      simp [lookupA, hnone, lookupA_insertA]
    · cases hl : lookupA k l with
      | none =>
        have hk' : k ≠ p.1 := fun e => hk e.symm
        simp [hl, lookupA, hk, insertA, lookupA_eraseKey_ne acc hk']
      | some v => simp [hl, lookupA, hk]

theorem lookupA_extend_some (c other : Container) (k : Ty) (e : Entry)
    (hnd : (other.registered_types.map Prod.fst).Nodup)
    (h : lookupA k other.registered_types = some e) :
    lookupA k (c.extend other).registered_types = some e := by
  have hf := lookupA_foldl_insertA k other.registered_types hnd
    c.registered_types
  rw [h] at hf
  exact hf

theorem lookupA_extend_none (c other : Container) (k : Ty)
    (hnd : (other.registered_types.map Prod.fst).Nodup)
    (h : lookupA k other.registered_types = none) :
    lookupA k (c.extend other).registered_types =
      lookupA k c.registered_types := by
  have hf := lookupA_foldl_insertA k other.registered_types hnd
    c.registered_types
  rw [h] at hf
  exact hf

theorem try_resolve_dyn_mismatch (fuel : Nat) (c : Container) (t : Ty)
    (e : Entry) (h : c.lookupEntry t = some e) (hd : e.dyn ≠ t) :
    c.try_resolve fuel t = Except.error (internalErrorMessage t c) := by
  rw [Container.try_resolve.eq_def]
  simp [h, hd]

theorem facsOk_new : FacsOk Container.new := by
  intro p hp
  simp [Container.new] at hp

theorem facsOk_applyOp (c : Container) (h : FacsOk c) (op : TraceOp) :
    FacsOk (applyOp c op) := by
  cases op with
  | reg t u =>
    intro p hp
    simp only [applyOp, Container.register, insertA, List.mem_cons] at hp
    rcases hp with hp | hp
    · subst hp
      exact ⟨rfl, u, rfl⟩
    · exact h p (mem_of_mem_eraseKey hp)
  | ext other =>
    intro p hp
    exact h p hp

theorem facsOk_applyOps (ops : List TraceOp) :
    ∀ c, FacsOk c → FacsOk (applyOps c ops) := by
  induction ops with
  | nil => intro c h; exact h
  | cons op ops ih =>
    intro c h
    exact ih _ (facsOk_applyOp c h op)

theorem facKey_persists_op (c : Container) (k : Ty) (op : TraceOp)
    (h : (lookupA k c.registered_type_factories).isSome = true) :
    (lookupA k (applyOp c op).registered_type_factories).isSome = true := by
  cases op with
  | reg t u =>
    simp only [applyOp, Container.register, lookupA_insertA]
    by_cases hk : Ty.producer t = k
    · simp [hk]
    · simp [hk, h]
  | ext other => exact h

theorem facKey_persists_ops (ops : List TraceOp) :
    ∀ (c : Container) (k : Ty),
      (lookupA k c.registered_type_factories).isSome = true →
      (lookupA k (applyOps c ops).registered_type_factories).isSome = true := by
  induction ops with
  | nil => intro c k h; exact h
  | cons op ops ih =>
    intro c k h
    exact ih _ _ (facKey_persists_op c k op h)

/-- C2 counterexample: `extend` does not insert every (identity, factory)
pair of the absorbed container.  The container R2 that registered `T0`
holds a pair filed under the producer identity `Box<dyn Fn() -> T0>` and
resolves that identity, but after `R1.extend(R2)` with `R1` empty the
merged container fails to resolve it, because `extend` copies only
`registered_types` and drops `registered_type_factories`. -/
theorem c2_extend_counterexample :
    (lookupA (Ty.producer (Ty.base 0))
        (Container.new.register (Ty.base 0)
          (FExpr.const 7)).registered_type_factories).isSome = true ∧
    (Container.new.register (Ty.base 0) (FExpr.const 7)).try_resolve 1
        (Ty.producer (Ty.base 0)) =
      Except.ok (some (Val.closure (FExpr.const 7)
        (Container.new.register (Ty.base 0) (FExpr.const 7)))) ∧
    (Container.new.extend
        (Container.new.register (Ty.base 0) (FExpr.const 7))).try_resolve 1
        (Ty.producer (Ty.base 0)) = Except.ok none :=
  ⟨rfl, rfl, rfl⟩

/-- C2 (amended): `extend` inserts every (identity, factory) pair of R2's
direct-registration map into R1 (R2's auto-generated producer-factory
entries are not copied): every identity directly registered in R2
resolves in the merged container to R2's entry (R2 wins on collision),
every identity directly registered only in R1 still resolves to R1's
entry, and a directly registered factory of R2 is the one the merged
container invokes. -/
theorem c2_extend_amended (r1 r2 : Container) (t : Ty)
    (hnd : (r2.registered_types.map Prod.fst).Nodup) :
    (∀ e, lookupA t r2.registered_types = some e →
      (r1.extend r2).lookupEntry t = some e) ∧
    (∀ e, lookupA t r2.registered_types = none →
      lookupA t r1.registered_types = some e →
      (r1.extend r2).lookupEntry t = some e) ∧
    (∀ u fuel, lookupA t r2.registered_types = some ⟨t, Factory.user u⟩ →
      (r1.extend r2).try_resolve fuel t =
        (evalFactory fuel u (r1.extend r2)).map some) := by
  refine ⟨?_, ?_, ?_⟩
  · intro e he
    have hm := lookupA_extend_some r1 r2 t e hnd he
    unfold Container.lookupEntry
    rw [hm]
  · intro e hn he
    have hm := lookupA_extend_none r1 r2 t hnd hn
    unfold Container.lookupEntry
    rw [hm, he]
  · intro u fuel he
    have hm := lookupA_extend_some r1 r2 t _ hnd he
    have hle : (r1.extend r2).lookupEntry t =
        some ⟨t, Factory.user u⟩ := by
      unfold Container.lookupEntry
      rw [hm]
    exact try_resolve_user_eq fuel _ t u hle

/-- Witness for the amended C2: R1 registers `T1`, R2 registers `T0`; the
merged container resolves `T0` to R2's entry, `T1` to R1's entry, and
dispatches R2's factory. -/
theorem c2_extend_amended_witness :
    ((Container.new.register (Ty.base 1) (FExpr.const 1)).extend
        (Container.new.register (Ty.base 0) (FExpr.const 7))).lookupEntry
      (Ty.base 0) = some ⟨Ty.base 0, Factory.user (FExpr.const 7)⟩ ∧
    ((Container.new.register (Ty.base 1) (FExpr.const 1)).extend
        (Container.new.register (Ty.base 0) (FExpr.const 7))).lookupEntry
      (Ty.base 1) = some ⟨Ty.base 1, Factory.user (FExpr.const 1)⟩ ∧
    ((Container.new.register (Ty.base 1) (FExpr.const 1)).extend
        (Container.new.register (Ty.base 0) (FExpr.const 7))).try_resolve 1
      (Ty.base 0) =
      (evalFactory 1 (FExpr.const 7)
        ((Container.new.register (Ty.base 1) (FExpr.const 1)).extend
          (Container.new.register (Ty.base 0) (FExpr.const 7)))).map some :=
  ⟨(c2_extend_amended _ _ (Ty.base 0) (by decide)).1 _ rfl,
   (c2_extend_amended _ _ (Ty.base 1) (by decide)).2.1 _ rfl rfl,
   (c2_extend_amended _ _ (Ty.base 0) (by decide)).2.2 (FExpr.const 7) 1 rfl⟩

/-- C3: if `register` was ever called for `t` in the construction history
of a container, then resolving the producer identity `Box<dyn Fn() -> t>`
never returns `None` (the deferred entry is installed at registration
time and no operation removes it); in the normal situation where no
direct registration shadows the producer identity, `try_resolve` returns
`Some` of the producer closure over the current container. -/
theorem c3_producer_resolves (ops : List TraceOp) (t : Ty) (u : FExpr)
    (fuel : Nat) (hmem : TraceOp.reg t u ∈ ops) :
    (applyOps Container.new ops).try_resolve fuel (Ty.producer t) ≠
      Except.ok none ∧
    (lookupA (Ty.producer t)
        (applyOps Container.new ops).registered_types = none →
      ∃ u', (applyOps Container.new ops).try_resolve fuel (Ty.producer t) =
        Except.ok (some (Val.closure u' (applyOps Container.new ops)))) := by
  have hkey : (lookupA (Ty.producer t)
      (applyOps Container.new ops).registered_type_factories).isSome
        = true := by
    obtain ⟨s, s', rfl⟩ := List.append_of_mem hmem
    have heq : applyOps Container.new (s ++ TraceOp.reg t u :: s') =
        applyOps (applyOp (applyOps Container.new s) (TraceOp.reg t u)) s' := by
      simp [applyOps, List.foldl_append]
    rw [heq]
    exact facKey_persists_ops s' _ _
      (by simp [applyOp, Container.register, lookupA_insertA])
  have hfoks := facsOk_applyOps ops Container.new facsOk_new
  cases hfac : lookupA (Ty.producer t)
      (applyOps Container.new ops).registered_type_factories with
  | none => rw [hfac] at hkey; simp at hkey
  | some e =>
    have hpmem := lookupA_mem hfac
    obtain ⟨hdyn, u', hfu⟩ := hfoks _ hpmem
    cases hty : lookupA (Ty.producer t)
        (applyOps Container.new ops).registered_types with
    | none =>
      have hle : (applyOps Container.new ops).lookupEntry (Ty.producer t) =
          some e := by
        unfold Container.lookupEntry
        rw [hty, hfac]
      have hee : e = ⟨Ty.producer t, Factory.deferred u'⟩ := by
        cases e with
        | mk d f =>
          simp only at hdyn hfu
          rw [hdyn, hfu]
      rw [hee] at hle
      have htr := try_resolve_deferred_eq fuel _ _ u' hle
      refine ⟨?_, fun _ => ⟨u', htr⟩⟩
      rw [htr]
      simp
    | some e₂ =>
      have hle : (applyOps Container.new ops).lookupEntry (Ty.producer t) =
          some e₂ := by
        unfold Container.lookupEntry
        rw [hty]
      refine ⟨?_, ?_⟩
      · by_cases hd : e₂.dyn = Ty.producer t
        · obtain ⟨d, f⟩ := e₂
          have hd' : d = Ty.producer t := hd
          subst hd'
          cases f with
          | user u₂ =>
            rw [try_resolve_user_eq fuel _ _ u₂ hle]
            exact map_some_ne_ok_none _
          | deferred u₂ =>
            rw [try_resolve_deferred_eq fuel _ _ u₂ hle]
            simp
        · rw [try_resolve_dyn_mismatch fuel _ _ e₂ hle hd]
          simp
      · intro habs
        exact Option.noConfusion habs

/-- Witness for C3: a one-operation history registering `T0`. -/
theorem c3_producer_resolves_witness :
    TraceOp.reg (Ty.base 0) (FExpr.const 3) ∈
      [TraceOp.reg (Ty.base 0) (FExpr.const 3)] ∧
    ((applyOps Container.new
        [TraceOp.reg (Ty.base 0) (FExpr.const 3)]).try_resolve 1
        (Ty.producer (Ty.base 0)) ≠ Except.ok none ∧
     (lookupA (Ty.producer (Ty.base 0))
        (applyOps Container.new
          [TraceOp.reg (Ty.base 0) (FExpr.const 3)]).registered_types =
          none →
       ∃ u', (applyOps Container.new
          [TraceOp.reg (Ty.base 0) (FExpr.const 3)]).try_resolve 1
          (Ty.producer (Ty.base 0)) =
         Except.ok (some (Val.closure u'
           (applyOps Container.new
             [TraceOp.reg (Ty.base 0) (FExpr.const 3)]))))) :=
  ⟨List.mem_cons_self _ _,
   c3_producer_resolves _ (Ty.base 0) (FExpr.const 3) 1
     (List.mem_cons_self _ _)⟩

/-! ### Registration order does not affect resolution behaviour -/

theorem isEmpty_eq_of_length_eq {α β : Type} {l₁ : List α} {l₂ : List β}
    (h : l₁.length = l₂.length) : l₁.isEmpty = l₂.isEmpty := by
  cases l₁ <;> cases l₂ <;> simp_all

theorem resolution_failure_help_congr {c₁ c₂ : Container}
    (h : LookupEquiv c₁ c₂) :
    c₁.resolution_failure_help = c₂.resolution_failure_help := by
  obtain ⟨hT, hF, hP⟩ := h
  have hnames : c₁.registered_type_names.Perm c₂.registered_type_names := by
    have hm := hP.map typeName
    simpa [Container.registered_type_names, List.map_map,
      Function.comp] using hm
  have hsort : List.insertionSort (fun a b : String => a ≤ b)
        c₁.registered_type_names =
      List.insertionSort (fun a b : String => a ≤ b)
        c₂.registered_type_names :=
    List.eq_of_perm_of_sorted
      ((List.perm_insertionSort _ _).trans
        (hnames.trans (List.perm_insertionSort _ _).symm))
      (List.sorted_insertionSort _ _) (List.sorted_insertionSort _ _)
  have hpp : c₁.pretty_print_registered_types =
      c₂.pretty_print_registered_types := by
    unfold Container.pretty_print_registered_types
    rw [hsort]
  have hlen : c₁.registered_types.length = c₂.registered_types.length := by
    have := hP.length_eq
    simpa using this
  have hemp : c₁.registered_types.isEmpty = c₂.registered_types.isEmpty :=
    isEmpty_eq_of_length_eq hlen
  unfold Container.resolution_failure_help
  rw [hemp, hpp]

theorem internalErrorMessage_congr {c₁ c₂ : Container}
    (h : LookupEquiv c₁ c₂) (t : Ty) :
    internalErrorMessage t c₁ = internalErrorMessage t c₂ := by
  unfold internalErrorMessage
  rw [resolution_failure_help_congr h]

theorem resEquiv_map_wrap_some (tag : Nat)
    {r₁ r₂ : Except String (Option Val)} (h : ResEquiv r₁ r₂) :
    ResEquiv ((r₁.map (Val.wrap tag)).map some)
      ((r₂.map (Val.wrap tag)).map some) := by
  cases h with
  | err s => exact ResEquiv.err s
  | miss => exact ResEquiv.hit (ValEquiv.wrapNone tag)
  | hit hv => exact ResEquiv.hit (ValEquiv.wrapSome tag hv)

/-- Lookup-equivalent containers have equivalent resolution behaviour at
every type and every recursion depth: the same hits, misses, values and
fatal messages, with producer closures capturing lookup-equivalent
snapshots. -/
theorem try_resolve_congr {c₁ c₂ : Container} (h : LookupEquiv c₁ c₂) :
    ∀ (fuel : Nat) (t : Ty),
      ResEquiv (c₁.try_resolve fuel t) (c₂.try_resolve fuel t) := by
  have hle : ∀ t, c₁.lookupEntry t = c₂.lookupEntry t := by
    intro t
    unfold Container.lookupEntry
    rw [h.1 t, h.2.1 t]
  intro fuel
  induction fuel with
  | zero =>
    intro t
    cases hl : c₂.lookupEntry t with
    | none =>
      rw [try_resolve_miss 0 c₁ t ((hle t).trans hl),
        try_resolve_miss 0 c₂ t hl]
      exact ResEquiv.miss
    | some e =>
      have hl₁ : c₁.lookupEntry t = some e := (hle t).trans hl
      by_cases hd : e.dyn = t
      · obtain ⟨d, f⟩ := e
        have hd' : d = t := hd
        rw [hd'] at hl₁ hl
        cases f with
        | user u =>
          rw [try_resolve_user_eq 0 c₁ t u hl₁,
            try_resolve_user_eq 0 c₂ t u hl]
          cases u with
          | const n => exact ResEquiv.hit (ValEquiv.base n)
          | resolveWrap tag dep => exact ResEquiv.err stackOverflowMessage
        | deferred u =>
          rw [try_resolve_deferred_eq 0 c₁ t u hl₁,
            try_resolve_deferred_eq 0 c₂ t u hl]
          exact ResEquiv.hit (ValEquiv.closure u ⟨h.1, h.2.1, h.2.2⟩)
      · rw [try_resolve_dyn_mismatch 0 c₁ t _ hl₁ hd,
          try_resolve_dyn_mismatch 0 c₂ t _ hl hd,
          internalErrorMessage_congr h t]
        exact ResEquiv.err _
  | succ f ih =>
    intro t
    cases hl : c₂.lookupEntry t with
    | none =>
      rw [try_resolve_miss _ c₁ t ((hle t).trans hl),
        try_resolve_miss _ c₂ t hl]
      exact ResEquiv.miss
    | some e =>
      have hl₁ : c₁.lookupEntry t = some e := (hle t).trans hl
      by_cases hd : e.dyn = t
      · obtain ⟨d, f'⟩ := e
        have hd' : d = t := hd
        rw [hd'] at hl₁ hl
        cases f' with
        | user u =>
          rw [try_resolve_user_eq _ c₁ t u hl₁,
            try_resolve_user_eq _ c₂ t u hl]
          cases u with
          | const n => exact ResEquiv.hit (ValEquiv.base n)
          | resolveWrap tag dep => exact resEquiv_map_wrap_some tag (ih dep)
        | deferred u =>
          rw [try_resolve_deferred_eq _ c₁ t u hl₁,
            try_resolve_deferred_eq _ c₂ t u hl]
          exact ResEquiv.hit (ValEquiv.closure u ⟨h.1, h.2.1, h.2.2⟩)
      · rw [try_resolve_dyn_mismatch _ c₁ t _ hl₁ hd,
          try_resolve_dyn_mismatch _ c₂ t _ hl hd,
          internalErrorMessage_congr h t]
        exact ResEquiv.err _

/-- Registering factories for two distinct types in either order yields
lookup-equivalent containers. -/
theorem register_comm_lookupEquiv (c : Container) (t₁ t₂ : Ty)
    (u₁ u₂ : FExpr) (hne : t₁ ≠ t₂) :
    LookupEquiv ((c.register t₁ u₁).register t₂ u₂)
      ((c.register t₂ u₂).register t₁ u₁) := by
  refine ⟨?_, ?_, ?_⟩
  · intro t
    simp only [Container.register]
    rw [lookupA_insertA, lookupA_insertA, lookupA_insertA, lookupA_insertA]
    by_cases h₂ : t₂ = t <;> by_cases h₁ : t₁ = t
    · exact absurd (h₁.trans h₂.symm) hne
    · simp [h₁, h₂]
    · simp [h₁, h₂]
    · simp [h₁, h₂]
  · intro t
    have hpne : Ty.producer t₁ ≠ Ty.producer t₂ := fun e => hne (by injection e)
    simp only [Container.register]
    rw [lookupA_insertA, lookupA_insertA, lookupA_insertA, lookupA_insertA]
    by_cases h₂ : Ty.producer t₂ = t <;> by_cases h₁ : Ty.producer t₁ = t
    · exact absurd (h₁.trans h₂.symm) hpne
    · simp [h₁, h₂]
    · simp [h₁, h₂]
    · simp [h₁, h₂]
  · simp only [Container.register, insertA]
    have h1 : eraseKey t₂
        ((t₁, (⟨t₁, Factory.user u₁⟩ : Entry)) ::
          eraseKey t₁ c.registered_types) =
        (t₁, (⟨t₁, Factory.user u₁⟩ : Entry)) ::
          eraseKey t₂ (eraseKey t₁ c.registered_types) := by
      simp [eraseKey, hne]
    have h2 : eraseKey t₁
        ((t₂, (⟨t₂, Factory.user u₂⟩ : Entry)) ::
          eraseKey t₂ c.registered_types) =
        (t₂, (⟨t₂, Factory.user u₂⟩ : Entry)) ::
          eraseKey t₁ (eraseKey t₂ c.registered_types) := by
      simp [eraseKey, Ne.symm hne]
    rw [h1, h2, eraseKey_comm]
    simp only [List.map_cons]
    exact List.Perm.swap _ _ _

/-- C8: resolution is independent of registration order.  Registering
factories for two distinct types in either order yields containers with
equivalent resolution behaviour at every type and recursion depth (the
general statement), and in the concrete three-stage scenario — a factory
for B resolving A, whose factory resolves an unrelated C — resolving B
succeeds with the same value whether A or B was registered first, because
lookup happens at invocation time. -/
theorem c8_registration_order_irrelevant (c : Container) (t₁ t₂ : Ty)
    (u₁ u₂ : FExpr) (hne : t₁ ≠ t₂) :
    LookupEquiv ((c.register t₁ u₁).register t₂ u₂)
      ((c.register t₂ u₂).register t₁ u₁) ∧
    (∀ fuel t, ResEquiv
      (((c.register t₁ u₁).register t₂ u₂).try_resolve fuel t)
      (((c.register t₂ u₂).register t₁ u₁).try_resolve fuel t)) ∧
    (((Container.new.register (Ty.base 2) (FExpr.const 5)).register
          (Ty.base 0) (FExpr.resolveWrap 10 (Ty.base 2))).register
          (Ty.base 1) (FExpr.resolveWrap 20 (Ty.base 0))).try_resolve 2
        (Ty.base 1) =
      Except.ok (some (Val.wrap 20 (some (Val.wrap 10
        (some (Val.base 5)))))) ∧
    (((Container.new.register (Ty.base 2) (FExpr.const 5)).register
          (Ty.base 1) (FExpr.resolveWrap 20 (Ty.base 0))).register
          (Ty.base 0) (FExpr.resolveWrap 10 (Ty.base 2))).try_resolve 2
        (Ty.base 1) =
      Except.ok (some (Val.wrap 20 (some (Val.wrap 10
        (some (Val.base 5)))))) := by
  have hc := register_comm_lookupEquiv c t₁ t₂ u₁ u₂ hne
  exact ⟨hc, fun fuel t => try_resolve_congr hc fuel t, rfl, rfl⟩

/-- Witness for C8: the two registration orders of distinct types `T0`,
`T1` resolve `T1` equivalently. -/
theorem c8_registration_order_irrelevant_witness :
    Ty.base 0 ≠ Ty.base 1 ∧
    ResEquiv
      (((Container.new.register (Ty.base 0)
          (FExpr.const 4)).register (Ty.base 1)
          (FExpr.resolveWrap 9 (Ty.base 0))).try_resolve 2 (Ty.base 1))
      (((Container.new.register (Ty.base 1)
          (FExpr.resolveWrap 9 (Ty.base 0))).register (Ty.base 0)
          (FExpr.const 4)).try_resolve 2 (Ty.base 1)) :=
  ⟨by decide,
   (c8_registration_order_irrelevant Container.new (Ty.base 0) (Ty.base 1)
      (FExpr.const 4) (FExpr.resolveWrap 9 (Ty.base 0))
      (by decide)).2.1 2 (Ty.base 1)⟩
